import Mathlib

/-!
Shallow embedding of `src/JS.js` (AeroScan front-end script) and proofs of
the specification claims about it.

The script manipulates the browser DOM; we model the DOM pieces each
function touches as explicit Lean data (lists of elements carrying the
attributes the code reads), JavaScript numbers as `Int`/`ℚ`, and the
`setInterval` loop of `animateCounter` as a fuel-indexed recursion whose
`some` result witnesses that the interval was cleared.
-/

namespace AeroScan

/-- A DOM element, restricted to the attributes the script reads or writes:
its class list (`classList`), its `id` and `href` attributes
(`getAttribute` returns `none` for a missing attribute), and the top of its
bounding client rect. -/
structure Element where
  classes : List String := []
  id : Option String := none
  href : Option String := none
  rectTop : Int := 0
deriving Repr, DecidableEq, Inhabited

/-- `classList.add c` on a raw token list: append unless already present. -/
def addToken (cs : List String) (c : String) : List String :=
  if c ∈ cs then cs else cs ++ [c]

/-- `classList.add c`: appends the token unless it is already present. -/
def classListAdd (e : Element) (c : String) : Element :=
  { e with classes := addToken e.classes c }

/-- `classList.remove c`: removes every occurrence of the token. -/
def classListRemove (e : Element) (c : String) : Element :=
  { e with classes := e.classes.filter (fun x => x ≠ c) }

/-!
## Scroll reveal (`revealOnScroll`, JS.js lines 45–57)

The function reads `window.innerHeight` and every `.reveal` element's
bounding-rect top, and adds the class `active` to those whose top is below
the reveal point. The state holds the elements of the document (in
document order) together with the window height.
-/

/-- State read by `revealOnScroll`: the document's elements and
`window.innerHeight`. -/
structure RevealState where
  elements : List Element
  innerHeight : Int
deriving Repr, DecidableEq

/-- `revealOnScroll`: for each element of class `reveal` whose
`getBoundingClientRect().top` is less than `window.innerHeight - 100`,
add class `active`.  Elements without class `reveal` are not selected by
`querySelectorAll('.reveal')` and are untouched. -/
def revealOnScroll (st : RevealState) : RevealState :=
  { st with elements := st.elements.map (fun e =>
      if "reveal" ∈ e.classes ∧ e.rectTop < st.innerHeight - 100 then
        classListAdd e "active"
      else e) }

/-!
## Active navigation link (`updateActiveNavLink`, JS.js lines 216–237)
-/

/-- A `section[id]` element as read by `updateActiveNavLink`: its `id`
attribute, its `offsetTop` and its (read but unused) `clientHeight`. -/
structure Sect where
  id : String
  offsetTop : Int
  clientHeight : Int := 0
deriving Repr, DecidableEq

/-- State read by `updateActiveNavLink`: the `section[id]` elements in
document order, the `.nav-links a` elements, and `window.pageYOffset`. -/
structure NavState where
  sections : List Sect
  navLinks : List Element
  pageYOffset : Int
deriving Repr, DecidableEq

/-- The `current` id computed by the first loop of `updateActiveNavLink`:
starting from `''`, each section with `pageYOffset >= offsetTop - 200`
overwrites it with its id. -/
def currentId (st : NavState) : String :=
  st.sections.foldl
    (fun cur s => if s.offsetTop - 200 ≤ st.pageYOffset then s.id else cur) ""

/-- `updateActiveNavLink`: recompute `current`, then for every nav link
remove class `active` and re-add it exactly when the link's `href`
attribute equals `'#' + current`. -/
def updateActiveNavLink (st : NavState) : NavState :=
  let current := currentId st
  { st with navLinks := st.navLinks.map (fun link =>
      let cleared := classListRemove link "active"
      if link.href = some ("#" ++ current) then classListAdd cleared "active"
      else cleared) }

/-!
## Animated counter (`animateCounter`, JS.js lines 70–86)

`animateCounter(element, target)` starts a 16 ms interval; each tick adds
`increment = target / (2000 / 16) = target / 125` to an accumulator that
starts at 0, displays `Math.floor(current).toLocaleString()`, and on the
tick where `current >= target` displays `target.toLocaleString()` and
clears the interval.  The only call site passes `parseInt` results, so the
target is an integer; the accumulator is exact rational arithmetic.

We model the interval as a fuel-indexed recursion returning the list of
successive displayed values; a `some` result means the interval was
cleared within the given number of ticks.
-/

/-- Group a reversed digit list into blocks of three, least significant
digits first. -/
def chunk3 : List Char → List (List Char)
  | [] => []
  | [a] => [[a]]
  | [a, b] => [[a, b]]
  | a :: b :: c :: rest => [a, b, c] :: chunk3 rest

/-- `Number.prototype.toLocaleString()` for integers in the default
(en-US-style) locale: decimal digits with comma grouping in threes,
preceded by `-` for negative numbers. -/
def toLocaleString (n : Int) : String :=
  let ds := Nat.toDigits 10 n.natAbs
  let blocks := (chunk3 ds.reverse).reverse.map (fun b => String.mk b.reverse)
  (if n < 0 then "-" else "") ++ String.intercalate "," blocks

/-- Value of a list of decimal digit characters, most significant first. -/
def digitsToNat (ds : List Char) : Nat :=
  ds.foldl (fun n c => 10 * n + (c.toNat - 48)) 0

/-- JS `parseInt(s)` (radix 10): skip leading whitespace, read an optional
sign and then the maximal run of leading decimal digits; `none` models
`NaN` (no digits found). -/
def parseIntOpt (s : String) : Option Int :=
  let cs := s.data.dropWhile Char.isWhitespace
  let signed : Int × List Char :=
    match cs with
    | '-' :: rest => (-1, rest)
    | '+' :: rest => (1, rest)
    | _ => (1, cs)
  let ds := signed.2.takeWhile Char.isDigit
  if ds.isEmpty then none else some (signed.1 * (digitsToNat ds : Int))

/-- `text.replace(/,/g, '')`: remove every comma. -/
def stripCommas (s : String) : String :=
  String.mk (s.data.filter (fun c => c ≠ ','))

/-- The interval loop of `animateCounter`: from accumulator `current`,
each tick computes `c = current + target / 125`; if `c >= target` the tick
displays `target` and clears the interval (recursion ends), otherwise it
displays `Math.floor(c)` and the interval continues.  Returns the list of
displayed values, or `none` if the interval is still running after `fuel`
ticks. -/
def animTrace (target : Int) : Nat → ℚ → Option (List Int)
  | 0, _ => none
  | fuel + 1, current =>
    let c := current + (target : ℚ) / 125
    if (target : ℚ) ≤ c then some [target]
    else (animTrace target fuel c).map (fun rest => (⌊c⌋ : Int) :: rest)

/-- `animateCounter(element, target)` as the sequence of strings written to
`element.textContent`, starting from accumulator 0; 126 ticks of fuel (the
loop needs at most 125). -/
def animateCounterTexts (target : Int) : Option (List String) :=
  (animTrace target 126 0).map (fun l => l.map toLocaleString)

/-- The per-stat work of the stats-observer callback (JS.js lines 103–107):
parse the target from the stat's text with commas stripped, set the text to
`'0'`, then run `animateCounter`.  The result is the sequence of text
contents the stat element takes on; `none` if the text parses to `NaN` or
the animation did not finish within fuel. -/
def statTexts (text : String) : Option (List String) :=
  (parseIntOpt (stripCommas text)).bind fun target =>
    (animateCounterTexts target).map (fun l => "0" :: l)

/-!
## Stats section observer (`initStatsObserver`, JS.js lines 97–121)

An `IntersectionObserver` with threshold 0.5 observes the `.stats`
section.  We model its lifecycle for that single target: a callback entry
is delivered only while the target is observed; when the entry is
intersecting the callback starts the counter animations and unobserves the
target.
-/

/-- Observer state for the `.stats` section: whether the section is still
observed and how many times the counter animation has been started. -/
structure StatsObserverState where
  observed : Bool
  triggers : Nat
deriving Repr, DecidableEq

/-- State right after `initStatsObserver` (with a `.stats` section
present): the section is observed, no animation has run. -/
def statsObserverInit : StatsObserverState :=
  { observed := true, triggers := 0 }

/-- Delivery of one intersection entry for the stats section.  The browser
delivers entries only for observed targets; an intersecting entry starts
the animations and calls `statsObserver.unobserve(entry.target)`. -/
def statsObserverStep (st : StatsObserverState) (isIntersecting : Bool) :
    StatsObserverState :=
  if st.observed then
    if isIntersecting then { observed := false, triggers := st.triggers + 1 }
    else st
  else st

/-- Process a whole sequence of visibility events from the initial state. -/
def statsObserverRun (evs : List Bool) : StatsObserverState :=
  evs.foldl statsObserverStep statsObserverInit

/-!
## Lazy image loading (`initLazyLoading`, JS.js lines 190–205)
-/

/-- An `img[data-src]` element: its `src`, its `data-src` (`dataset.src`),
its class list, and whether the image observer still observes it
(`true` right after `initLazyLoading`). -/
structure Img where
  src : String
  dataSrc : String
  classes : List String := []
  observed : Bool := true
deriving Repr, DecidableEq

/-- The intersecting branch of the image-observer callback:
`img.src = img.dataset.src`, `img.classList.add('loaded')`,
`observer.unobserve(img)`. -/
def loadImg (img : Img) : Img :=
  { img with src := img.dataSrc,
             classes := addToken img.classes "loaded",
             observed := false }

/-- Delivery of one intersection entry for an image: entries arrive only
while the image is observed, and only an intersecting entry loads it. -/
def imgStep (img : Img) (isIntersecting : Bool) : Img :=
  if img.observed ∧ isIntersecting then loadImg img else img

/-- Process a whole sequence of visibility events for one image. -/
def imgRun (img : Img) (evs : List Bool) : Img :=
  evs.foldl imgStep img

/-!
## Debounce (`debounce`, JS.js lines 168–178)

`debounce(func, wait)` keeps one timeout handle.  Every call clears the
pending timeout (if it has not fired yet) and schedules `func` with the
call's arguments `wait` ms later.  We model a run as the list of calls to
the debounced function, as pairs (time, argument) with strictly increasing
times, and compute the list of (time, argument) executions of `func`.
-/

/-- Process the calls in time order, carrying the pending timeout
(`some (fireTime, args)` mirrors the closed-over `timeout` handle plus the
captured `args`).  A pending timeout whose fire time has passed when the
next call happens has already executed `func`; otherwise `clearTimeout`
cancels it and the call schedules a new one.  After the last call the
pending timeout fires.  (When a call coincides exactly with the fire time
the event-loop order is ambiguous; we let the timeout fire first.  The
burst hypothesis of the claim makes this case unreachable.) -/
def debounceRun {α : Type} (w : Nat) :
    Option (Nat × α) → List (Nat × α) → List (Nat × α)
  | pending, [] => pending.toList
  | pending, (t, a) :: rest =>
    match pending with
    | some (ft, fa) =>
      if ft ≤ t then (ft, fa) :: debounceRun w (some (t + w, a)) rest
      else debounceRun w (some (t + w, a)) rest
    | none => debounceRun w (some (t + w, a)) rest

/-- The executions of `func` produced by calling the function returned by
`debounce(func, w)` at the given times with the given arguments. -/
def debounceFires {α : Type} (w : Nat) (calls : List (Nat × α)) :
    List (Nat × α) :=
  debounceRun w none calls

/-!
## Smooth scrolling (`initSmoothScrolling`, JS.js lines 20–34)
-/

/-- Observable DOM effects of one click on a bound anchor. -/
inductive Effect
  | preventDefault
  | scrollIntoView (idx : Nat) (behavior : String) (block : String)
deriving Repr, DecidableEq

/-- The `a[href^="#"]` attribute selector: the `href` value begins with
`#`. -/
def hrefStartsHash (s : String) : Bool :=
  match s.data with
  | '#' :: _ => true
  | _ => false

/-- `document.querySelector(sel)` for the selectors reachable from the
bound anchors (their `href`, which begins with `#`): an id selector
`#frag` returns the index of the first element whose id is `frag`; a
selector whose fragment is empty (`href="#"`) or starts with a digit is
invalid CSS and throws a `SyntaxError`.  The catch-all branch is
unreachable from the bound anchors. -/
def querySelector (doc : List Element) (sel : String) :
    Except String (Option Nat) :=
  match sel.data with
  | '#' :: rest =>
    if rest = [] ∨ (rest.headD ' ').isDigit then Except.error "SyntaxError"
    else Except.ok (doc.findIdx? (fun e => e.id = some (String.mk rest)))
  | _ => Except.ok none

/-- The click listener `initSmoothScrolling` attaches to each
`a[href^="#"]` anchor: `e.preventDefault()`, then look up the anchor's
`href` with `querySelector`; if a target is found, scroll it into view
with `{behavior: 'smooth', block: 'start'}`.  A thrown selector error
aborts the listener after `preventDefault`. -/
def anchorClick (doc : List Element) (href : String) : List Effect :=
  Effect.preventDefault ::
    match querySelector doc href with
    | Except.error _ => []
    | Except.ok none => []
    | Except.ok (some i) => [Effect.scrollIntoView i "smooth" "start"]

/-!
## Concrete states used to instantiate the theorems below
-/

/-- A single reveal element that already carries `active` but sits far
below the viewport (`rectTop = 1000`, `innerHeight = 500`). -/
def revealStateBelow : RevealState :=
  { elements := [{ classes := ["reveal", "active"], rectTop := 1000 }],
    innerHeight := 500 }

/-- A single revealed element inside the viewport. -/
def revealStateIn : RevealState :=
  { elements := [{ classes := ["reveal", "active"], rectTop := 50 }],
    innerHeight := 800 }

/-- A nav link that (also) carries class `reveal`, in a document with no
sections: `updateActiveNavLink` computes `current = ''` and strips
`active` from it. -/
def navStateRevealLink : NavState :=
  { sections := [],
    navLinks := [{ classes := ["reveal", "active"], href := some "#features" }],
    pageYOffset := 0 }

/-- Three sections and three nav links, scrolled so that `about` is the
last section above the fold line. -/
def navStateMid : NavState :=
  { sections := [⟨"home", 0, 600⟩, ⟨"about", 900, 600⟩, ⟨"contact", 1800, 600⟩],
    navLinks := [{ classes := ["x"], href := some "#home" },
                 { classes := ["active"], href := some "#about" },
                 { href := some "#contact" }],
    pageYOffset := 1000 }

/-- Scrolled to the very top: every section's `offsetTop - 200` is above
`pageYOffset`; one link with bare `href="#"`. -/
def navStateTop : NavState :=
  { sections := [⟨"about", 900, 600⟩, ⟨"contact", 1800, 600⟩],
    navLinks := [{ classes := ["active"], href := some "#about" },
                 { href := some "#" }],
    pageYOffset := 0 }

/-- A two-element document with ids `top` and `about`. -/
def docAbout : List Element :=
  [{ id := some "top" }, { id := some "about" }]

/-- A lazily loaded image still showing its placeholder. -/
def imgPlaceholder : Img :=
  { src := "placeholder.png", dataSrc := "real.png" }

/-!
## Helper lemmas
-/

theorem mem_addToken {cs : List String} {c a : String} :
    a ∈ addToken cs c ↔ a ∈ cs ∨ a = c := by
  unfold addToken
  by_cases h : c ∈ cs
  · rw [if_pos h]
    constructor
    · exact Or.inl
    · rintro (ha | rfl)
      · exact ha
      · exact h
  · rw [if_neg h]
    simp

theorem default_element_classes : (default : Element).classes = [] := rfl

/-- `classList` operations do not touch the `href` attribute. -/
theorem classListRemove_href (e : Element) (c : String) :
    (classListRemove e c).href = e.href := rfl

theorem classListAdd_href (e : Element) (c : String) :
    (classListAdd e c).href = e.href := rfl

/-- Membership of `active` after `revealOnScroll`, element by element:
the class is present afterwards iff it was present before or the element
is a reveal element above the reveal line. -/
theorem revealOnScroll_getD_active (st : RevealState) (i : Nat) :
    ("active" ∈ ((revealOnScroll st).elements.getD i default).classes) ↔
      ("active" ∈ (st.elements.getD i default).classes ∨
        ("reveal" ∈ (st.elements.getD i default).classes ∧
          (st.elements.getD i default).rectTop < st.innerHeight - 100)) := by
  rw [List.getD_eq_getElem?_getD, List.getD_eq_getElem?_getD]
  have hmap : (revealOnScroll st).elements[i]? =
      (st.elements[i]?).map (fun e =>
        if "reveal" ∈ e.classes ∧ e.rectTop < st.innerHeight - 100 then
          classListAdd e "active"
        else e) := by
    simp [revealOnScroll, List.getElem?_map]
  rw [hmap]
  rcases st.elements[i]? with _ | e
  · simp [default_element_classes]
  · simp only [Option.map_some', Option.getD_some]
    by_cases hc : "reveal" ∈ e.classes ∧ e.rectTop < st.innerHeight - 100
    · rw [if_pos hc]
      simp only [classListAdd, mem_addToken]
      tauto
    · rw [if_neg hc]
      tauto

/-!
## C2 — scroll reveal

The claim says `revealOnScroll` "toggles" the class so that an element
that leaves the viewport loses it again.  The code only ever adds the
class (there is no removal branch), so the claim fails; the correct
statement is the add-only characterisation proved afterwards.
-/

/-- C2, counterexample: in `revealStateBelow` the single element's rect
top (1000) is not below `innerHeight - 100 = 400`, yet after
`revealOnScroll` it still carries class `active`: the class is not
toggled off when the element is outside the viewport. -/
theorem revealOnScroll_no_toggle_cex :
    ("active" ∈ ((revealOnScroll revealStateBelow).elements.getD 0 default).classes) ∧
      ¬((revealStateBelow.elements.getD 0 default).rectTop <
          revealStateBelow.innerHeight - 100) := by
  decide

/-- C2 (amended): after a call to `revealOnScroll`, an element carries
class `active` iff it already carried it before, or it has class `reveal`
and its bounding-rect top is less than the window height minus the 100px
reveal point.  In particular the class is only added, never removed, so an
element that leaves the viewport keeps it. -/
theorem revealOnScroll_active_iff (st : RevealState) (i : Nat) :
    ("active" ∈ ((revealOnScroll st).elements.getD i default).classes) ↔
      ("active" ∈ (st.elements.getD i default).classes ∨
        ("reveal" ∈ (st.elements.getD i default).classes ∧
          (st.elements.getD i default).rectTop < st.innerHeight - 100)) :=
  revealOnScroll_getD_active st i

/-!
## C8 — permanence of reveals
-/

/-- A state differing only in geometry (element order, count and classes
unchanged; rect tops and the window height arbitrary). -/
def geomUpdate (st st' : RevealState) : Prop :=
  st'.elements.length = st.elements.length ∧
  ∀ i : Nat, (st'.elements.getD i default).classes =
    (st.elements.getD i default).classes

/-- One processed scroll event: the page geometry moves arbitrarily, then
the (debounced) listener runs `revealOnScroll`. -/
def scrollStep (st st' : RevealState) : Prop :=
  ∃ mid, geomUpdate st mid ∧ st' = revealOnScroll mid

/-- C8, counterexample: the claim says no operation in the script ever
removes class `active` from an element with class `reveal`.  But
`updateActiveNavLink` unconditionally removes `active` from every
`.nav-links a` element; on `navStateRevealLink`, whose nav link also
carries class `reveal`, the class is removed. -/
theorem navLink_removes_active_from_reveal_cex :
    ("reveal" ∈ (navStateRevealLink.navLinks.getD 0 default).classes ∧
      "active" ∈ (navStateRevealLink.navLinks.getD 0 default).classes) ∧
    ("reveal" ∈ ((updateActiveNavLink navStateRevealLink).navLinks.getD 0 default).classes ∧
      "active" ∉ ((updateActiveNavLink navStateRevealLink).navLinks.getD 0 default).classes) := by
  decide

/-- C8 (amended): `revealOnScroll` itself never removes class `active`:
across any sequence of scroll events — arbitrary geometry changes followed
by `revealOnScroll` — an element that carries the class keeps it,
regardless of whether it later leaves the viewport.  (Only
`updateActiveNavLink` can strip `active`, and only from `.nav-links a`
elements.) -/
theorem reveal_active_permanent (st st' : RevealState) (i : Nat)
    (hsteps : Relation.ReflTransGen scrollStep st st')
    (hactive : "active" ∈ (st.elements.getD i default).classes) :
    "active" ∈ (st'.elements.getD i default).classes := by
  induction hsteps with
  | refl => exact hactive
  | tail _ hstep ih =>
    rcases hstep with ⟨mid, hgeom, rfl⟩
    rw [revealOnScroll_getD_active]
    exact Or.inl ((hgeom.2 i) ▸ ih)

/-- C8 witness: one concrete scroll step from `revealStateIn` (geometry
unchanged), applied to its already revealed element. -/
theorem reveal_active_permanent_witness :
    Relation.ReflTransGen scrollStep revealStateIn (revealOnScroll revealStateIn) ∧
      "active" ∈ (revealStateIn.elements.getD 0 default).classes ∧
      "active" ∈ ((revealOnScroll revealStateIn).elements.getD 0 default).classes :=
  have hstep : Relation.ReflTransGen scrollStep revealStateIn
      (revealOnScroll revealStateIn) :=
    Relation.ReflTransGen.single ⟨revealStateIn, ⟨rfl, fun _ => rfl⟩, rfl⟩
  ⟨hstep, by decide,
    reveal_active_permanent revealStateIn (revealOnScroll revealStateIn) 0 hstep (by decide)⟩

/-!
## C3 — the stats counter triggers at most once
-/

/-- Once the stats section is unobserved, no later event changes the
observer state. -/
theorem statsObserver_absorbed (evs : List Bool) (st : StatsObserverState)
    (h : st.observed = false) : evs.foldl statsObserverStep st = st := by
  induction evs with
  | nil => rfl
  | cons e rest ih => simp only [List.foldl_cons, statsObserverStep, h]; exact ih

/-- C3: whatever sequence of visibility events the stats section goes
through, the counter animation is started at most once — exactly once as
soon as some event is intersecting (at least 50% visible), after which the
section is unobserved, and never otherwise. -/
theorem statsObserver_at_most_once (evs : List Bool) :
    statsObserverRun evs =
      if evs.any (fun b => b) then { observed := false, triggers := 1 }
      else statsObserverInit := by
  induction evs with
  | nil => rfl
  | cons e rest ih =>
    cases e
    · simpa only [statsObserverRun, List.foldl_cons, List.any_cons, Bool.false_or,
        statsObserverStep, statsObserverInit, if_true, if_false] using ih
    · simp only [statsObserverRun, List.foldl_cons, List.any_cons, Bool.true_or,
        if_true, statsObserverInit, statsObserverStep]
      exact statsObserver_absorbed rest _ rfl

/-!
## C6 — lazy loading swaps each image source at most once
-/

/-- An unobserved image is never touched again by the image observer. -/
theorem imgRun_absorbed (img : Img) (evs : List Bool)
    (h : img.observed = false) : imgRun img evs = img := by
  induction evs with
  | nil => rfl
  | cons e rest ih =>
    simp only [imgRun, List.foldl_cons] at ih ⊢
    have hstep : imgStep img e = img := by
      simp [imgStep, h]
    rw [hstep]
    exact ih

/-- C6: for an image observed by the lazy-loading observer, any event
sequence containing an intersection loads it exactly once — `src` becomes
`data-src`, class `loaded` is added, the image is unobserved so later
events change nothing — and an image that never intersects keeps its
placeholder `src` unchanged. -/
theorem lazyLoad_swaps_once (img : Img) (h : img.observed = true)
    (evs : List Bool) :
    imgRun img evs = if evs.any (fun b => b) then loadImg img else img := by
  induction evs with
  | nil => rfl
  | cons e rest ih =>
    cases e
    · have hstep : imgStep img false = img := by simp [imgStep]
      simpa only [imgRun, List.foldl_cons, List.any_cons, Bool.false_or, hstep] using ih
    · have hstep : imgStep img true = loadImg img := by simp [imgStep, h]
      simp only [imgRun, List.foldl_cons, List.any_cons, Bool.true_or, if_true, hstep]
      exact imgRun_absorbed _ rest rfl

/-- C6 witness: `imgPlaceholder` over the event sequence
`[false, true, true]` is loaded exactly once. -/
theorem lazyLoad_swaps_once_witness :
    imgPlaceholder.observed = true ∧
      imgRun imgPlaceholder [false, true, true] =
        (if [false, true, true].any (fun b => b) then loadImg imgPlaceholder
         else imgPlaceholder) :=
  ⟨rfl, lazyLoad_swaps_once imgPlaceholder rfl [false, true, true]⟩

/-!
## C5 / C10 — active navigation link
-/

/-- The `current`-computing fold keeps the id of the last matching section
(or its initial value when none matches). -/
theorem foldl_currentId (y : Int) (l : List Sect) (init : String) :
    l.foldl (fun cur s => if s.offsetTop - 200 ≤ y then s.id else cur) init =
      (match (l.filter (fun s => decide (s.offsetTop - 200 ≤ y))).getLast? with
       | some s => s.id
       | none => init) := by
  induction l generalizing init with
  | nil => rfl
  | cons s t ih =>
    by_cases hs : s.offsetTop - 200 ≤ y
    · rw [List.foldl_cons, if_pos hs, ih s.id, List.filter_cons_of_pos (by simpa using hs)]
      rcases ht : (t.filter (fun s => decide (s.offsetTop - 200 ≤ y))).getLast? with _ | s'
      · rw [List.getLast?_eq_none_iff] at ht
        rw [ht]
        rfl
      · have hne : t.filter (fun s => decide (s.offsetTop - 200 ≤ y)) ≠ [] := by
          intro hnil
          rw [hnil] at ht
          exact Option.noConfusion ht
        rcases hlist : t.filter (fun s => decide (s.offsetTop - 200 ≤ y)) with _ | ⟨a, r⟩
        · exact absurd hlist hne
        · rw [hlist] at ht
          rw [hlist, List.getLast?_cons_cons, ht]
    · rw [List.foldl_cons, if_neg hs, ih init, List.filter_cons_of_neg (by simpa using hs)]

/-- After `updateActiveNavLink`, a nav link carries `active` iff its
`href` attribute is `'#' + current`; the `href` itself is untouched. -/
theorem updateActiveNavLink_link_active (st : NavState) (link : Element)
    (hmem : link ∈ (updateActiveNavLink st).navLinks) :
    ("active" ∈ link.classes ↔ link.href = some ("#" ++ currentId st)) := by
  simp only [updateActiveNavLink, List.mem_map] at hmem
  rcases hmem with ⟨l0, _, rfl⟩
  have hrem : "active" ∉ (classListRemove l0 "active").classes := by
    simp [classListRemove]
  by_cases hh : l0.href = some ("#" ++ currentId st)
  · rw [if_pos hh]
    simp only [classListAdd, mem_addToken, classListAdd_href, classListRemove_href, hh]
    tauto
  · rw [if_neg hh]
    simp only [classListRemove_href]
    exact iff_of_false hrem hh

/-- C5: whenever some section has scrolled past the fold line
(`offsetTop - 200 ≤ pageYOffset`), the id `updateActiveNavLink` marks is
that of the last such section in document order, and afterwards exactly
the nav links whose `href` attribute is `'#' + that id` carry class
`active` (it is removed from every other nav link). -/
theorem updateActiveNavLink_marks_last_section (st : NavState) (sec : Sect)
    (h : (st.sections.filter
        (fun s => decide (s.offsetTop - 200 ≤ st.pageYOffset))).getLast? = some sec) :
    currentId st = sec.id ∧
    ∀ link ∈ (updateActiveNavLink st).navLinks,
      ("active" ∈ link.classes ↔ link.href = some ("#" ++ sec.id)) := by
  have hcur : currentId st = sec.id := by
    rw [currentId, foldl_currentId, h]
  exact ⟨hcur, fun link hmem => hcur ▸ updateActiveNavLink_link_active st link hmem⟩

/-- C5 witness: in `navStateMid` the last section above the fold is
`about`, and exactly the `#about` link ends up active. -/
theorem updateActiveNavLink_marks_last_section_witness :
    ((navStateMid.sections.filter
        (fun s => decide (s.offsetTop - 200 ≤ navStateMid.pageYOffset))).getLast? =
      some ⟨"about", 900, 600⟩) ∧
    (currentId navStateMid = "about" ∧
      ∀ link ∈ (updateActiveNavLink navStateMid).navLinks,
        ("active" ∈ link.classes ↔ link.href = some ("#" ++ "about"))) :=
  ⟨by decide, updateActiveNavLink_marks_last_section navStateMid ⟨"about", 900, 600⟩ (by decide)⟩

/-- C10: when `pageYOffset` is strictly less than `offsetTop - 200` for
every section, the computed id is the empty string, and exactly the nav
links whose `href` attribute is the bare `'#'` are marked active, the
class being removed from all others. -/
theorem updateActiveNavLink_empty_id (st : NavState)
    (h : ∀ s ∈ st.sections, st.pageYOffset < s.offsetTop - 200) :
    currentId st = "" ∧
    ∀ link ∈ (updateActiveNavLink st).navLinks,
      ("active" ∈ link.classes ↔ link.href = some "#") := by
  have hfilter : st.sections.filter
      (fun s => decide (s.offsetTop - 200 ≤ st.pageYOffset)) = [] := by
    rw [List.filter_eq_nil_iff]
    intro s hs
    simpa using not_le.mpr (h s hs)
  have hcur : currentId st = "" := by
    rw [currentId, foldl_currentId, hfilter]
    rfl
  refine ⟨hcur, fun link hmem => ?_⟩
  have := updateActiveNavLink_link_active st link hmem
  rwa [hcur] at this

/-- C10 witness: at the very top of `navStateTop` the bare-`#` link is the
active one. -/
theorem updateActiveNavLink_empty_id_witness :
    (∀ s ∈ navStateTop.sections, navStateTop.pageYOffset < s.offsetTop - 200) ∧
    (currentId navStateTop = "" ∧
      ∀ link ∈ (updateActiveNavLink navStateTop).navLinks,
        ("active" ∈ link.classes ↔ link.href = some "#")) :=
  ⟨by decide, updateActiveNavLink_empty_id navStateTop (by decide)⟩

/-!
## C4 — debounce
-/

/-- During a burst, every call cancels the pending timeout before it can
fire, so a run starting from the timeout scheduled by the burst's first
call produces exactly one firing: that of the burst's last call. -/
theorem debounceRun_burst {α : Type} (w : Nat) (rest : List (Nat × α)) :
    ∀ (t : Nat) (a : α),
      List.Chain' (fun p q => p.1 < q.1 ∧ q.1 < p.1 + w) ((t, a) :: rest) →
      debounceRun w (some (t + w, a)) rest =
        [((rest.getLastD (t, a)).1 + w, (rest.getLastD (t, a)).2)] := by
  induction rest with
  | nil =>
    intro t a _
    rfl
  | cons p rest' ih =>
    intro t a hchain
    obtain ⟨t', a'⟩ := p
    have h1 : t < t' ∧ t' < t + w := (List.chain'_cons.mp hchain).1
    have hnot : ¬ (t + w ≤ t') := not_le.mpr h1.2
    have hunfold : debounceRun w (some (t + w, a)) ((t', a') :: rest') =
        if t + w ≤ t' then (t + w, a) :: debounceRun w (some (t' + w, a')) rest'
        else debounceRun w (some (t' + w, a')) rest' := rfl
    rw [hunfold, if_neg hnot, List.getLastD_cons]
    exact ih t' a' (List.chain'_cons.mp hchain).2

/-- C4: a finite burst of calls to the function returned by
`debounce(func, w)` — calls at strictly increasing times with consecutive
gaps smaller than `w` — makes `func` execute exactly once, `w` ms after
the last call of the burst, with the argument of that last call. -/
theorem debounce_burst_fires_once {α : Type} (w : Nat) (t : Nat) (a : α)
    (rest : List (Nat × α))
    (hchain : List.Chain' (fun p q => p.1 < q.1 ∧ q.1 < p.1 + w) ((t, a) :: rest)) :
    debounceFires w ((t, a) :: rest) =
      [((((t, a) :: rest).getLastD (t, a)).1 + w,
        (((t, a) :: rest).getLastD (t, a)).2)] := by
  have h0 : debounceFires w ((t, a) :: rest) = debounceRun w (some (t + w, a)) rest := rfl
  rw [h0, List.getLastD_cons]
  exact debounceRun_burst w rest t a hchain

/-- C4 witness: three calls at 0, 5 and 15 ms with `w = 20` fire once, at
35 ms, with the last call's argument. -/
theorem debounce_burst_fires_once_witness :
    List.Chain' (fun p q : Nat × Nat => p.1 < q.1 ∧ q.1 < p.1 + 20)
        [(0, 1), (5, 2), (15, 3)] ∧
      debounceFires 20 [(0, 1), (5, 2), (15, 3)] =
        [(([(0, 1), (5, 2), (15, 3)].getLastD ((0 : Nat), (1 : Nat))).1 + 20,
          ([(0, 1), (5, 2), (15, 3)].getLastD ((0 : Nat), (1 : Nat))).2)] :=
  ⟨by norm_num [List.chain'_cons, List.chain'_singleton],
    debounce_burst_fires_once 20 0 1 [(5, 2), (15, 3)]
      (by norm_num [List.chain'_cons, List.chain'_singleton])⟩

/-!
## C1 / C9 — animated counter
-/

/-- One unfolding of the interval loop. -/
theorem animTrace_succ (t : Int) (fuel : Nat) (current : ℚ) :
    animTrace t (fuel + 1) current =
      (if (t : ℚ) ≤ current + (t : ℚ) / 125 then some [t]
       else (animTrace t fuel (current + (t : ℚ) / 125)).map
         (fun rest => (⌊current + (t : ℚ) / 125⌋ : Int) :: rest)) := rfl

/-- For a target that is zero or negative, the very first tick already
satisfies `current >= target` and the interval is cleared. -/
theorem animTrace_nonpos (t : Int) (h : t ≤ 0) :
    animTrace t 126 0 = some [t] := by
  have ht : (t : ℚ) ≤ 0 := by exact_mod_cast h
  have hc : (t : ℚ) ≤ 0 + (t : ℚ) / 125 := by
    rw [zero_add, le_div_iff₀ (by norm_num : (0 : ℚ) < 125)]
    linarith
  show animTrace t (125 + 1) 0 = some [t]
  rw [animTrace_succ, if_pos hc]

/-- For a positive target, starting `k + 2` ticks of fuel before the end
with accumulator `(124 - k) * t / 125`, the interval is cleared and the
last displayed value is the target. -/
theorem animTrace_pos_aux (t : Int) (ht : 0 < t) :
    ∀ k : Nat, k ≤ 124 →
      ∃ l, animTrace t (k + 2) (((124 - k : Nat) : ℚ) * (t : ℚ) / 125) = some l ∧
        l.getLast? = some t := by
  intro k
  induction k with
  | zero =>
    intro _
    have h124 : ((124 - 0 : Nat) : ℚ) = 124 := by norm_num
    have heq : (124 : ℚ) * (t : ℚ) / 125 + (t : ℚ) / 125 = (t : ℚ) := by ring
    refine ⟨[t], ?_, rfl⟩
    show animTrace t (1 + 1) (((124 - 0 : Nat) : ℚ) * (t : ℚ) / 125) = some [t]
    rw [animTrace_succ, h124, if_pos (le_of_eq heq.symm)]
  | succ k ih =>
    intro hk1
    have htQ : (0 : ℚ) < (t : ℚ) := by exact_mod_cast ht
    have hstep : ((124 - (k + 1) : Nat) : ℚ) * (t : ℚ) / 125 + (t : ℚ) / 125 =
        ((124 - k : Nat) : ℚ) * (t : ℚ) / 125 := by
      have h1 : (124 - (k + 1) : Nat) = 123 - k := by omega
      rw [h1, Nat.cast_sub (by omega : k ≤ 123), Nat.cast_sub (by omega : k ≤ 124)]
      push_cast
      ring
    have hlt : ((124 - k : Nat) : ℚ) * (t : ℚ) / 125 < (t : ℚ) := by
      rw [Nat.cast_sub (by omega : k ≤ 124), div_lt_iff₀ (by norm_num : (0 : ℚ) < 125)]
      have h1 : (0 : ℚ) < (1 + (k : ℚ)) * (t : ℚ) := mul_pos (by positivity) htQ
      push_cast
      nlinarith [h1]
    obtain ⟨l, hl, hlast⟩ := ih (by omega)
    obtain ⟨b, l', rfl⟩ : ∃ b l', l = b :: l' := by
      cases l with
      | nil => exact absurd hlast (by simp)
      | cons b l' => exact ⟨b, l', rfl⟩
    refine ⟨(⌊((124 - k : Nat) : ℚ) * (t : ℚ) / 125⌋ : Int) :: b :: l', ?_, ?_⟩
    · show animTrace t ((k + 2) + 1) (((124 - (k + 1) : Nat) : ℚ) * (t : ℚ) / 125) = _
      rw [animTrace_succ, hstep, if_neg (not_le.mpr hlt), hl]
      rfl
    · rw [List.getLast?_cons_cons]
      exact hlast

/-- The interval of `animateCounter` is always cleared within the 126
ticks of fuel, and the last displayed value is the target. -/
theorem animTrace_total (t : Int) :
    ∃ l, animTrace t 126 0 = some l ∧ l.getLast? = some t := by
  rcases le_or_lt t 0 with h | h
  · exact ⟨[t], animTrace_nonpos t h, rfl⟩
  · have haux := animTrace_pos_aux t h 124 (le_refl 124)
    have hz : ((124 - 124 : Nat) : ℚ) * (t : ℚ) / 125 = 0 := by norm_num
    rw [hz] at haux
    exact haux

/-- C1: for every numeric target, `animateCounter` terminates (the
interval is cleared) with final text `target.toLocaleString()`; and for a
stat element whose original text parses (commas stripped) to `target`,
the observer callback first sets the text to `'0'` and the animation then
ends at `toLocaleString target`. -/
theorem counter_reaches_target (target : Int) (text : String)
    (h : parseIntOpt (stripCommas text) = some target) :
    (∃ l, animateCounterTexts target = some l ∧
        l.getLast? = some (toLocaleString target)) ∧
    (∃ l, statTexts text = some ("0" :: l) ∧
        l.getLast? = some (toLocaleString target)) := by
  obtain ⟨l0, hl0, hlast⟩ := animTrace_total target
  have hact : animateCounterTexts target = some (l0.map toLocaleString) := by
    rw [animateCounterTexts, hl0]
    rfl
  have hlast2 : (l0.map toLocaleString).getLast? = some (toLocaleString target) := by
    rw [List.getLast?_map, hlast]
    rfl
  refine ⟨⟨l0.map toLocaleString, hact, hlast2⟩,
    ⟨l0.map toLocaleString, ?_, hlast2⟩⟩
  simp [statTexts, h, hact]

/-- C1 witness: a stat reading `"1,234"` is reset to `'0'` and counts up
to `"1,234"` again. -/
theorem counter_reaches_target_witness :
    parseIntOpt (stripCommas "1,234") = some 1234 ∧
      ((∃ l, animateCounterTexts 1234 = some l ∧
          l.getLast? = some (toLocaleString 1234)) ∧
        (∃ l, statTexts "1,234" = some ("0" :: l) ∧
          l.getLast? = some (toLocaleString 1234))) :=
  ⟨by decide, counter_reaches_target 1234 "1,234" (by decide)⟩

/-- Invariant of the interval loop for a positive target: every displayed
value is at most the target, the displayed values are nondecreasing, and
none is below the floor of the current accumulator. -/
theorem animTrace_invariant (t : Int) (ht : 0 < t) :
    ∀ (fuel : Nat) (current : ℚ) (l : List Int), current < (t : ℚ) →
      animTrace t fuel current = some l →
      List.Chain' (fun a b => a ≤ b) l ∧ (∀ x ∈ l, x ≤ t) ∧
        (∀ x ∈ l, ⌊current⌋ ≤ x) := by
  have htQ : (0 : ℚ) < (t : ℚ) := by exact_mod_cast ht
  intro fuel
  induction fuel with
  | zero =>
    intro current l _ hl
    exact absurd hl (by simp [animTrace])
  | succ fuel ih =>
    intro current l hcur hl
    rw [animTrace_succ] at hl
    have hinc : current ≤ current + (t : ℚ) / 125 := by
      have : (0 : ℚ) < (t : ℚ) / 125 := by positivity
      linarith
    by_cases hfin : (t : ℚ) ≤ current + (t : ℚ) / 125
    · rw [if_pos hfin] at hl
      obtain rfl : [t] = l := Option.some.inj hl
      have hfloor : (⌊current⌋ : Int) ≤ t := by
        have h1 : (⌊current⌋ : Int) ≤ ⌊(t : ℚ)⌋ := Int.floor_le_floor hcur.le
        simpa using h1
      refine ⟨List.chain'_singleton t, ?_, ?_⟩
      · intro x hx
        rw [List.mem_singleton] at hx
        exact hx ▸ le_refl t
      · intro x hx
        rw [List.mem_singleton] at hx
        exact hx ▸ hfloor
    · rw [if_neg hfin] at hl
      obtain ⟨rest, hrest, rfl⟩ := Option.map_eq_some'.mp hl
      have hclt : current + (t : ℚ) / 125 < (t : ℚ) := not_le.mp hfin
      obtain ⟨hchain, hbound, hlow⟩ := ih (current + (t : ℚ) / 125) rest hclt hrest
      have hfc : (⌊current⌋ : Int) ≤ ⌊current + (t : ℚ) / 125⌋ :=
        Int.floor_le_floor hinc
      refine ⟨?_, ?_, ?_⟩
      · rw [List.chain'_cons']
        exact ⟨fun b hb => hlow b (List.mem_of_mem_head? hb), hchain⟩
      · intro x hx
        rcases List.mem_cons.mp hx with rfl | hx'
        · have h1 : (⌊current + (t : ℚ) / 125⌋ : Int) ≤ ⌊(t : ℚ)⌋ :=
            Int.floor_le_floor hclt.le
          simpa using h1
        · exact hbound x hx'
      · intro x hx
        rcases List.mem_cons.mp hx with rfl | hx'
        · exact hfc
        · exact le_trans hfc (hlow x hx')

/-- C9: for a positive target, the animation run exists (the interval is
cleared), its displayed values are nondecreasing, and no displayed value
ever exceeds the target. -/
theorem counter_display_monotone (target : Int) (h : 0 < target) :
    ∃ l, animTrace target 126 0 = some l ∧
      List.Chain' (fun a b => a ≤ b) l ∧ ∀ x ∈ l, x ≤ target := by
  obtain ⟨l, hl, _⟩ := animTrace_total target
  have h0 : (0 : ℚ) < (target : ℚ) := by exact_mod_cast h
  obtain ⟨hchain, hbound, _⟩ := animTrace_invariant target h 126 0 l h0 hl
  exact ⟨l, hl, hchain, hbound⟩

/-- C9 witness at target 3. -/
theorem counter_display_monotone_witness :
    (0 : Int) < 3 ∧
      ∃ l, animTrace 3 126 0 = some l ∧
        List.Chain' (fun a b => a ≤ b) l ∧ ∀ x ∈ l, x ≤ 3 :=
  ⟨by decide, counter_display_monotone 3 (by decide)⟩

/-!
## C7 — smooth-scroll anchor clicks
-/

/-- C7: clicking a bound anchor (one whose `href` begins with `#`) always
prevents the default navigation first; when `querySelector` finds a
target the only further effect is scrolling it into view with
`{behavior: 'smooth', block: 'start'}`, and when it finds none — or the
selector is invalid and throws — the click has no further effect. -/
theorem anchorClick_effects (doc : List Element) (href : String)
    (_h : hrefStartsHash href = true) :
    (anchorClick doc href).head? = some Effect.preventDefault ∧
    (∀ i, querySelector doc href = Except.ok (some i) →
      anchorClick doc href =
        [Effect.preventDefault, Effect.scrollIntoView i "smooth" "start"]) ∧
    ((∀ i, querySelector doc href ≠ Except.ok (some i)) →
      anchorClick doc href = [Effect.preventDefault]) := by
  refine ⟨rfl, ?_, ?_⟩
  · intro i hi
    simp [anchorClick, hi]
  · intro hnone
    rcases hq : querySelector doc href with err | o
    · simp [anchorClick, hq]
    · rcases o with _ | i
      · simp [anchorClick, hq]
      · exact absurd hq (hnone i)

/-- C7 witness: clicking `#about` in `docAbout` prevents default and can
only scroll to the `about` element. -/
theorem anchorClick_effects_witness :
    hrefStartsHash "#about" = true ∧
      ((anchorClick docAbout "#about").head? = some Effect.preventDefault ∧
        (∀ i, querySelector docAbout "#about" = Except.ok (some i) →
          anchorClick docAbout "#about" =
            [Effect.preventDefault, Effect.scrollIntoView i "smooth" "start"]) ∧
        ((∀ i, querySelector docAbout "#about" ≠ Except.ok (some i)) →
          anchorClick docAbout "#about" = [Effect.preventDefault])) :=
  ⟨by decide, anchorClick_effects docAbout "#about" (by decide)⟩

end AeroScan
